import Mathlib

/-!
Shallow embedding of two UI units of the repository:
* `MessageEditHistoryDialog` — an edit-history dialog that paginates message
  edits (`loadMoreEdits`), reconciles locally-pending redactions
  (`locallyRedactEventsIfNeeded`) and renders an error/loading/content view.
* `usePlainTextListeners` — a plain-text composer hook whose listeners map
  input/paste/key-down DOM events to content updates and send actions.

External dependencies (the matrix client library, the browser DOM, the
platform flag, the settings store) appear as explicit parameters: the server
response of `client.relations` is an input to `loadMoreEdits`, the browser's
HTML-entity decoding is a function parameter `decodeHtml`, `IS_MAC` and the
"enter sends" setting are boolean parameters.
-/

namespace EditHistoryDialog

/-- The wire type of room redaction events (`EventType.RoomRedaction`). -/
def roomRedactionType : String := "m.room.redaction"

/-- A locally-pending (unsent) event, as returned by `room.getPendingEvents()`:
its id, its event type, and the id of the event it is associated with
(`getAssociatedId`), e.g. the redaction target. -/
structure PendingEvent where
  eid : String
  etype : String
  associatedId : Option String
deriving DecidableEq, Repr

/-- A fetched edit event: its id and the pending redaction it has been marked
locally redacted by (`markLocallyRedacted`), if any. -/
structure MEvent where
  eid : String
  redactedBy : Option PendingEvent
deriving DecidableEq, Repr

/-- The slice of a `Room` the dialog reads: its pending events. -/
structure Room where
  pendingEvents : List PendingEvent
deriving DecidableEq, Repr

/-- A `MatrixError`: carries an optional server error code (`errcode`). -/
structure MatrixError where
  errcode : Option String
deriving DecidableEq, Repr

/-- The component state of `MessageEditHistoryDialog` (the `isTwelveHour`
display flag is omitted: no claim mentions it and it never changes). -/
structure DialogState where
  originalEvent : Option MEvent
  error : Option MatrixError
  events : List MEvent
  nextBatch : Option String
  isLoading : Bool
deriving DecidableEq, Repr

/-- The state installed by the constructor. -/
def initialState : DialogState :=
  { originalEvent := none
    error := none
    events := []
    nextBatch := none
    isLoading := true }

/-- The result object of `client.relations(roomId, eventId, Replace,
RoomMessage, opts)`. -/
structure RelationsResult where
  events : List MEvent
  originalEvent : Option MEvent
  nextBatch : Option String
deriving DecidableEq, Repr

/-- The outcome of the awaited `client.relations` call: a result, or a thrown
error. -/
inductive FetchResult where
  | ok (r : RelationsResult)
  | err (e : MatrixError)
deriving DecidableEq, Repr

/-- The settled value of the promise returned by `loadMoreEdits`. -/
inductive PromiseResult where
  | resolved (hasMore : Bool)
  | rejected (e : MatrixError)
deriving DecidableEq, Repr

/-- One iteration of the loop body of `locallyRedactEventsIfNeeded`: find the
first pending event of type room-redaction whose associated id is this event's
id, and if found mark the event locally redacted by it. -/
def markIfNeeded (pendingEvents : List PendingEvent) (e : MEvent) : MEvent :=
  match pendingEvents.find? (fun pe =>
      pe.etype == roomRedactionType && pe.associatedId == some e.eid) with
  | some pe => { e with redactedBy := some pe }
  | none => e

/-- `locallyRedactEventsIfNeeded`: if the room is unknown, do nothing;
otherwise mark each new event against the room's pending events (the source
mutates the events in place; the embedding maps over the list). -/
def locallyRedactEventsIfNeeded (room : Option Room) (newEvents : List MEvent) :
    List MEvent :=
  match room with
  | none => newEvents
  | some room => newEvents.map (markIfNeeded room.pendingEvents)

/-- The observable outcome of one `loadMoreEdits` call: the state after the
call, how many fetches were issued, the `from` option of the issued request
(`none` when no request was issued), and the settled promise value. -/
structure LoadOutcome where
  state : DialogState
  fetchCount : Nat
  request : Option (Option String)
  result : PromiseResult
deriving DecidableEq, Repr

/-- `loadMoreEdits(backwards?)`. The guard, the `from` option, the error path
(store the error, reject) and the success path (mark redactions, append
events, update the cursor, clear the loading flag, resolve with whether a
cursor remains) follow the source line by line; the server's behaviour is the
`server` parameter. -/
def loadMoreEdits (s : DialogState) (backwards : Bool) (room : Option Room)
    (server : FetchResult) : LoadOutcome :=
  if backwards || (s.nextBatch.isNone && !s.isLoading) then
    -- bail out on backwards as we only paginate in one direction
    { state := s, fetchCount := 0, request := none, result := .resolved false }
  else
    match server with
    | .err e =>
        { state := { s with error := some e }
          fetchCount := 1
          request := some s.nextBatch
          result := .rejected e }
    | .ok r =>
        let newEvents := locallyRedactEventsIfNeeded room r.events
        let s' : DialogState :=
          { originalEvent := s.originalEvent.orElse (fun _ => r.originalEvent)
            error := s.error
            events := s.events ++ newEvents
            nextBatch := r.nextBatch
            isLoading := false }
        { state := s'
          fetchCount := 1
          request := some s.nextBatch
          result := .resolved s'.nextBatch.isSome }

/-- The shape of the rendered dialog body: one of the three static error
messages, the loading spinner, or the scroll panel (the only content that
wires `loadMoreEdits` as its fill-request handler). -/
inductive Content where
  | errorUnsupported
  | errorGeneric
  | errorUnreachable
  | spinner
  | scrollPanel
deriving DecidableEq, Repr

/-- The content branch of `render()`. -/
def render (s : DialogState) : Content :=
  match s.error with
  | some err =>
      if err.errcode = some "M_UNRECOGNIZED" then .errorUnsupported
      else if err.errcode.isSome then .errorGeneric
      else .errorUnreachable
  | none => if s.isLoading then .spinner else .scrollPanel

end EditHistoryDialog

namespace PlainTextComposer

/-- `Key.ENTER`. -/
def keyEnter : String := "Enter"

/-- The fields of a keyboard event the handler reads. -/
structure KeyboardEvt where
  key : String
  shiftKey : Bool
  ctrlKey : Bool
  metaKey : Bool
deriving DecidableEq, Repr

/-- The fields of an input/paste event the handler reads: whether the target
is a div element, and the target's `innerHTML`. -/
structure InputEvt where
  targetIsDiv : Bool
  targetInnerHTML : String
deriving DecidableEq, Repr

/-- The state the hook owns: the editor div's `innerHTML` behind the ref
(`none` when the ref is not attached) and the `content` state. -/
structure ComposerState where
  editorHTML : Option String
  content : Option String
deriving DecidableEq, Repr

/-- The externally visible callback effects of one handler invocation: how
often `onSend` was invoked, and the arguments of the `onChange` invocations. -/
structure Effects where
  onSendCount : Nat
  onChangeCalls : List String
deriving DecidableEq, Repr

/-- No callback was invoked. -/
def noEffects : Effects := { onSendCount := 0, onChangeCalls := [] }

/-- Scan of a JavaScript global replace `str.replace(/pattern/g, repl)` for a
literal, non-empty pattern: walk left to right, and at each position either
consume a leftmost match whole (emitting `repl`) or emit one character. The
fuel argument (instantiated with the string length) makes the recursion
structural; one unit covers at least one consumed character. -/
def replaceAllAux (pattern repl : List Char) : Nat → List Char → List Char
  | _, [] => []
  | 0, cs => cs
  | fuel + 1, c :: rest =>
      if pattern.isPrefixOf (c :: rest) then
        repl ++ replaceAllAux pattern repl fuel (List.drop (pattern.length - 1) rest)
      else c :: replaceAllAux pattern repl fuel rest

/-- JavaScript `s.replace(/pattern/g, repl)` for a literal pattern. -/
def replaceAll (s pattern repl : String) : String :=
  ⟨replaceAllAux pattern.data repl.data s.data.length s.data⟩

/-- `amendInnerHtml`: decode HTML entities (the browser-provided decoding is
the parameter `decodeHtml`), then replace every `<div><br></div>` with a
newline, every remaining `<div>` with a newline, and remove every `</div>`. -/
def amendInnerHtml (decodeHtml : String → String) (text : String) : String :=
  replaceAll
    (replaceAll (replaceAll (decodeHtml text) "<div><br></div>" "\n") "<div>" "\n")
    "</div>" ""

/-- The `send` callback: clear the editor div's `innerHTML` when the ref is
attached, then invoke `onSend`. -/
def send (s : ComposerState) : ComposerState × Effects :=
  match s.editorHTML with
  | some _ => ({ s with editorHTML := some "" }, { onSendCount := 1, onChangeCalls := [] })
  | none => (s, { onSendCount := 1, onChangeCalls := [] })

/-- The `setText` callback (returned as `setContent`): with an argument, set
`content` and invoke `onChange`; without one, read the ref's `innerHTML`
instead (a no-op when the ref is not attached). -/
def setText (s : ComposerState) (text : Option String) : ComposerState × Effects :=
  match text with
  | some t => ({ s with content := some t }, { onSendCount := 0, onChangeCalls := [t] })
  | none =>
      match s.editorHTML with
      | some cur =>
          ({ s with content := some cur }, { onSendCount := 0, onChangeCalls := [cur] })
      | none => (s, noEffects)

/-- The `onInput` handler: for a div target, commit the raw `innerHTML` when
"enter sends" is enabled and the amended form otherwise. -/
def onInput (decodeHtml : String → String) (enterShouldSend : Bool) (ev : InputEvt)
    (s : ComposerState) : ComposerState × Effects :=
  if ev.targetIsDiv then
    let newInnerHTML :=
      if enterShouldSend then ev.targetInnerHTML
      else amendInnerHtml decodeHtml ev.targetInnerHTML
    setText s (some newInnerHTML)
  else (s, noEffects)

/-- The `onPaste` handler: the hook returns `onInput` itself. -/
def onPaste (decodeHtml : String → String) (enterShouldSend : Bool) :
    InputEvt → ComposerState → ComposerState × Effects :=
  onInput decodeHtml enterShouldSend

/-- The `onKeyDown` handler. `handledByAutocomplete` is the verdict of
`handleEventWithAutocomplete`; `isMac` is the `IS_MAC` platform flag. The two
source conditionals run in sequence, so the embedding composes their effects. -/
def onKeyDown (handledByAutocomplete isMac enterShouldSend : Bool)
    (ev : KeyboardEvt) (s : ComposerState) : ComposerState × Effects :=
  if handledByAutocomplete then (s, noEffects)
  else if ev.key = keyEnter then
    let sendModifierIsPressed := if isMac then ev.metaKey else ev.ctrlKey
    let r1 := if enterShouldSend && !ev.shiftKey then send s else (s, noEffects)
    let r2 :=
      if !enterShouldSend && sendModifierIsPressed then send r1.1 else (r1.1, noEffects)
    (r2.1,
      { onSendCount := r1.2.onSendCount + r2.2.onSendCount
        onChangeCalls := r1.2.onChangeCalls ++ r2.2.onChangeCalls })
  else (s, noEffects)

end PlainTextComposer

namespace EditHistoryDialog

/-! ### Helper lemmas and concrete example values -/

/-- The guard of `loadMoreEdits` rejects the call exactly when `backwards` is
requested or the cursor is exhausted while nothing is loading. -/
theorem loadMoreEdits_bail (s : DialogState) (backwards : Bool) (room : Option Room)
    (server : FetchResult)
    (h : backwards = true ∨ (s.nextBatch = none ∧ s.isLoading = false)) :
    loadMoreEdits s backwards room server =
      { state := s, fetchCount := 0, request := none, result := .resolved false } := by
  rcases h with h | ⟨h1, h2⟩
  · simp [loadMoreEdits, h]
  · simp [loadMoreEdits, h1, h2]

/-- When the guard passes and the fetch succeeds, `loadMoreEdits` produces the
success outcome of the source's `setState` call. -/
theorem loadMoreEdits_ok (s : DialogState) (room : Option Room) (r : RelationsResult)
    (h : s.nextBatch ≠ none ∨ s.isLoading = true) :
    loadMoreEdits s false room (.ok r) =
      { state :=
          { originalEvent := s.originalEvent.orElse (fun _ => r.originalEvent)
            error := s.error
            events := s.events ++ locallyRedactEventsIfNeeded room r.events
            nextBatch := r.nextBatch
            isLoading := false }
        fetchCount := 1
        request := some s.nextBatch
        result := .resolved r.nextBatch.isSome } := by
  rcases h with h | h
  · cases hnb : s.nextBatch
    · exact absurd hnb h
    · simp [loadMoreEdits, hnb]
  · simp [loadMoreEdits, h]

/-- When the guard passes and the fetch throws, `loadMoreEdits` stores the
error and rejects. -/
theorem loadMoreEdits_err (s : DialogState) (room : Option Room) (e : MatrixError)
    (h : s.nextBatch ≠ none ∨ s.isLoading = true) :
    loadMoreEdits s false room (.err e) =
      { state := { s with error := some e }
        fetchCount := 1
        request := some s.nextBatch
        result := .rejected e } := by
  rcases h with h | h
  · cases hnb : s.nextBatch
    · exact absurd hnb h
    · simp [loadMoreEdits, hnb]
  · simp [loadMoreEdits, h]

/-- A response carrying no events and no continuation token. -/
def rEmpty : RelationsResult := { events := [], originalEvent := none, nextBatch := none }

/-- An edit event not yet marked redacted. -/
def evA : MEvent := { eid := "$e1", redactedBy := none }

/-- A response carrying one event and a continuation token. -/
def resA : RelationsResult :=
  { events := [evA], originalEvent := none, nextBatch := some "tok2" }

/-- A pending redaction targeting `evA`. -/
def peA : PendingEvent :=
  { eid := "$r1", etype := "m.room.redaction", associatedId := some "$e1" }

/-- A room whose pending events are the single redaction `peA`. -/
def roomB : Room := { pendingEvents := [peA] }

end EditHistoryDialog

namespace EditHistoryDialog

/-! ### Claims about the edit-history dialog -/

/-- C1: a successful `loadMoreEdits` call (backwards not requested, guard
passed) issues exactly one fetch whose `from` option is the current cursor;
the fetched events are appended to the accumulated list, the cursor becomes
the response's `nextBatch` (null when absent), `isLoading` becomes false, and
the promise resolves with `true` iff the updated cursor is non-null. -/
theorem loadMoreEdits_success_spec (s : DialogState) (room : Option Room)
    (r : RelationsResult) (hguard : s.nextBatch ≠ none ∨ s.isLoading = true) :
    (loadMoreEdits s false room (.ok r)).fetchCount = 1 ∧
    (loadMoreEdits s false room (.ok r)).request = some s.nextBatch ∧
    (loadMoreEdits s false room (.ok r)).state.events
        = s.events ++ locallyRedactEventsIfNeeded room r.events ∧
    (loadMoreEdits s false room (.ok r)).state.nextBatch = r.nextBatch ∧
    (loadMoreEdits s false room (.ok r)).state.isLoading = false ∧
    ((loadMoreEdits s false room (.ok r)).result = .resolved true ↔
      (loadMoreEdits s false room (.ok r)).state.nextBatch ≠ none) := by
  rw [loadMoreEdits_ok s room r hguard]
  refine ⟨rfl, rfl, rfl, rfl, rfl, ?_⟩
  cases r.nextBatch <;> simp

/-- C1 witness: the initial load from the constructor state. -/
theorem loadMoreEdits_success_spec_witness :
    (loadMoreEdits initialState false (some roomB) (.ok resA)).fetchCount = 1 ∧
    (loadMoreEdits initialState false (some roomB) (.ok resA)).state.nextBatch
      = some "tok2" :=
  ⟨(loadMoreEdits_success_spec initialState (some roomB) resA (Or.inr rfl)).1,
   (loadMoreEdits_success_spec initialState (some roomB) resA (Or.inr rfl)).2.2.2.1⟩

/-- C2: a backwards call always bails with `false` and no request; so does any
call with a null cursor while nothing is loading; and after a guard-passing
success whose response has `nextBatch = null` (one fetch), every further call
bails with `false`, no request, and an unchanged state. -/
theorem loadMoreEdits_reject_and_exhaust :
    (∀ (s : DialogState) (room : Option Room) (server : FetchResult),
      loadMoreEdits s true room server =
        { state := s, fetchCount := 0, request := none, result := .resolved false }) ∧
    (∀ (s : DialogState) (room : Option Room) (server : FetchResult),
      s.nextBatch = none → s.isLoading = false →
      loadMoreEdits s false room server =
        { state := s, fetchCount := 0, request := none, result := .resolved false }) ∧
    (∀ (s : DialogState) (room : Option Room) (r : RelationsResult),
      s.nextBatch ≠ none ∨ s.isLoading = true → r.nextBatch = none →
      (loadMoreEdits s false room (.ok r)).fetchCount = 1 ∧
      (∀ (b : Bool) (room2 : Option Room) (server2 : FetchResult),
        loadMoreEdits (loadMoreEdits s false room (.ok r)).state b room2 server2 =
          { state := (loadMoreEdits s false room (.ok r)).state
            fetchCount := 0
            request := none
            result := .resolved false })) := by
  refine ⟨?_, ?_, ?_⟩
  · intro s room server
    exact loadMoreEdits_bail s true room server (Or.inl rfl)
  · intro s room server h1 h2
    exact loadMoreEdits_bail s false room server (Or.inr ⟨h1, h2⟩)
  · intro s room r hguard hnb
    rw [loadMoreEdits_ok s room r hguard]
    refine ⟨rfl, ?_⟩
    intro b room2 server2
    apply loadMoreEdits_bail
    cases b
    · exact Or.inr ⟨hnb, rfl⟩
    · exact Or.inl rfl

/-- C2 witness: from the constructor state, a response with no continuation
token exhausts the dialog and the next call bails without a request. -/
theorem loadMoreEdits_reject_and_exhaust_witness :
    (loadMoreEdits initialState false none (.ok rEmpty)).fetchCount = 1 ∧
    loadMoreEdits (loadMoreEdits initialState false none (.ok rEmpty)).state
        false (some roomB) (.ok resA) =
      { state := (loadMoreEdits initialState false none (.ok rEmpty)).state
        fetchCount := 0
        request := none
        result := .resolved false } := by
  have h := loadMoreEdits_reject_and_exhaust.2.2 initialState none rEmpty (Or.inr rfl) rfl
  exact ⟨h.1, h.2 false (some roomB) (.ok resA)⟩

/-- C3 is refuted: the guard rejects only backwards calls and null-cursor
calls while idle, never calls made while `isLoading` is true. From the
constructor state (`isLoading = true`, the window of the initial load) a
non-backwards call is not rejected — it issues a fetch. -/
theorem loadMoreEdits_reentrancy_counterexample :
    initialState.isLoading = true ∧
    ¬((loadMoreEdits initialState false none (.ok rEmpty)).fetchCount = 0 ∧
      (loadMoreEdits initialState false none (.ok rEmpty)).result
        = .resolved false) := by
  decide

/-- C3 amended: calls made while `isLoading` is true are not rejected — every
such call with backwards not requested passes the guard and issues exactly one
request, whatever the server does. -/
theorem loadMoreEdits_while_loading_fetches (s : DialogState) (room : Option Room)
    (server : FetchResult) (h : s.isLoading = true) :
    (loadMoreEdits s false room server).fetchCount = 1 := by
  cases server <;> simp [loadMoreEdits, h]

/-- C3 amended witness: a re-entrant call from the constructor state. -/
theorem loadMoreEdits_while_loading_fetches_witness :
    (loadMoreEdits initialState false (some roomB) (.ok resA)).fetchCount = 1 :=
  loadMoreEdits_while_loading_fetches initialState (some roomB) (.ok resA) rfl

/-- C4: when the fetch fails, the thrown error is stored in the state, the
promise rejects with that error, and no retry happens — the call issued
exactly one fetch and left the accumulated events and the cursor unchanged. -/
theorem loadMoreEdits_failure_spec (s : DialogState) (room : Option Room)
    (e : MatrixError) (hguard : s.nextBatch ≠ none ∨ s.isLoading = true) :
    (loadMoreEdits s false room (.err e)).fetchCount = 1 ∧
    (loadMoreEdits s false room (.err e)).state.error = some e ∧
    (loadMoreEdits s false room (.err e)).result = .rejected e ∧
    (loadMoreEdits s false room (.err e)).state.events = s.events ∧
    (loadMoreEdits s false room (.err e)).state.nextBatch = s.nextBatch := by
  rw [loadMoreEdits_err s room e hguard]
  exact ⟨rfl, rfl, rfl, rfl, rfl⟩

/-- C4 witness: a failing initial load stores the error and rejects. -/
theorem loadMoreEdits_failure_spec_witness :
    (loadMoreEdits initialState false none (.err { errcode := some "M_FORBIDDEN" })).state.error
      = some { errcode := some "M_FORBIDDEN" } :=
  (loadMoreEdits_failure_spec initialState none { errcode := some "M_FORBIDDEN" }
    (Or.inr rfl)).2.1

/-- C5: the accumulated edit list is append-only — every `loadMoreEdits`
transition extends the events list, so the previous list is a prefix of the
new one. -/
theorem loadMoreEdits_events_append_only (s : DialogState) (backwards : Bool)
    (room : Option Room) (server : FetchResult) :
    ∃ t, (loadMoreEdits s backwards room server).state.events = s.events ++ t := by
  by_cases hb : (backwards || (s.nextBatch.isNone && !s.isLoading)) = true
  · exact ⟨[], by simp [loadMoreEdits, hb]⟩
  · cases server with
    | err e => exact ⟨[], by simp [loadMoreEdits, hb]⟩
    | ok r =>
        exact ⟨locallyRedactEventsIfNeeded room r.events, by simp [loadMoreEdits, hb]⟩

end EditHistoryDialog

namespace EditHistoryDialog

/-- C6: for a newly fetched batch in a known room, the batch is processed
element-wise; an event with some pending room-redaction whose associated id is
the event's id gets marked locally redacted by such a pending redaction, and
an event with no matching pending redaction is left unchanged. -/
theorem locallyRedact_spec (room : Room) (evs : List MEvent) (e : MEvent)
    (he : e ∈ evs) :
    locallyRedactEventsIfNeeded (some room) evs
        = evs.map (markIfNeeded room.pendingEvents) ∧
    ((∃ pe ∈ room.pendingEvents,
        pe.etype = roomRedactionType ∧ pe.associatedId = some e.eid) →
      ∃ pe ∈ room.pendingEvents,
        pe.etype = roomRedactionType ∧ pe.associatedId = some e.eid ∧
        markIfNeeded room.pendingEvents e = { e with redactedBy := some pe }) ∧
    ((¬∃ pe ∈ room.pendingEvents,
        pe.etype = roomRedactionType ∧ pe.associatedId = some e.eid) →
      markIfNeeded room.pendingEvents e = e) := by
  refine ⟨rfl, ?_, ?_⟩
  · intro hex
    obtain ⟨pe, hmem, h1, h2⟩ := hex
    have hp : (pe.etype == roomRedactionType && pe.associatedId == some e.eid) = true := by
      simp [h1, h2]
    have hsome : (room.pendingEvents.find? (fun pe =>
        pe.etype == roomRedactionType && pe.associatedId == some e.eid)).isSome :=
      List.find?_isSome.mpr ⟨pe, hmem, hp⟩
    obtain ⟨pf, hf⟩ := Option.isSome_iff_exists.mp hsome
    have hpf := List.find?_some hf
    have hmf := List.mem_of_find?_eq_some hf
    have hpf' : pf.etype = roomRedactionType ∧ pf.associatedId = some e.eid := by
      simpa using hpf
    refine ⟨pf, hmf, hpf'.1, hpf'.2, ?_⟩
    simp [markIfNeeded, hf]
  · intro hnone
    have hfn : room.pendingEvents.find? (fun pe =>
        pe.etype == roomRedactionType && pe.associatedId == some e.eid) = none := by
      rw [List.find?_eq_none]
      intro x hx hcontra
      have hc : x.etype = roomRedactionType ∧ x.associatedId = some e.eid := by
        simpa using hcontra
      exact hnone ⟨x, hx, hc.1, hc.2⟩
    simp [markIfNeeded, hfn]

/-- C6 witness: a batch of one event against a room with one matching pending
redaction — the event comes out marked redacted by it. -/
theorem locallyRedact_spec_witness :
    locallyRedactEventsIfNeeded (some roomB) [evA]
        = [evA].map (markIfNeeded roomB.pendingEvents) ∧
    markIfNeeded roomB.pendingEvents evA = { evA with redactedBy := some peA } :=
  ⟨(locallyRedact_spec roomB [evA] evA (by simp)).1, by decide⟩

/-- C9: in an error state the rendered content is determined solely by the
error code — the "feature unsupported" message iff the code is
`M_UNRECOGNIZED`, the generic server-error message iff some other code is
present, the unreachable-host message iff no code is present — and neither the
spinner nor the scroll panel (the only content wired to `loadMoreEdits`) is
shown, so nothing retries. -/
theorem render_error_spec (s : DialogState) (err : MatrixError)
    (h : s.error = some err) :
    (render s = .errorUnsupported ↔ err.errcode = some "M_UNRECOGNIZED") ∧
    (render s = .errorGeneric ↔
      (err.errcode ≠ none ∧ err.errcode ≠ some "M_UNRECOGNIZED")) ∧
    (render s = .errorUnreachable ↔ err.errcode = none) ∧
    render s ≠ .spinner ∧ render s ≠ .scrollPanel := by
  unfold render
  rw [h]
  by_cases h1 : err.errcode = some "M_UNRECOGNIZED"
  · simp [h1]
  · cases h2 : err.errcode with
    | none => simp [h1, h2]
    | some c => simp_all

/-- C9 witness: an `M_UNRECOGNIZED` error renders the unsupported message. -/
theorem render_error_spec_witness :
    render { initialState with error := some { errcode := some "M_UNRECOGNIZED" } }
      = .errorUnsupported :=
  (render_error_spec
    { initialState with error := some { errcode := some "M_UNRECOGNIZED" } }
    { errcode := some "M_UNRECOGNIZED" } rfl).1.mpr rfl

end EditHistoryDialog

namespace PlainTextComposer

/-! ### Helper lemmas and concrete example values -/

/-- `send` invokes `onSend` exactly once. -/
theorem send_onSendCount (s : ComposerState) : (send s).2.onSendCount = 1 := by
  cases h : s.editorHTML <;> simp [send, h]

/-- `send` never invokes `onChange`. -/
theorem send_onChangeCalls (s : ComposerState) : (send s).2.onChangeCalls = [] := by
  cases h : s.editorHTML <;> simp [send, h]

/-- `send` leaves the `content` state untouched. -/
theorem send_content (s : ComposerState) : (send s).1.content = s.content := by
  cases h : s.editorHTML <;> simp [send, h]

/-- `send` clears the editor div's `innerHTML` when the ref is attached. -/
theorem send_editorHTML (s : ComposerState) :
    (send s).1.editorHTML = s.editorHTML.map (fun _ => "") := by
  cases h : s.editorHTML <;> simp [send, h]

/-- An Enter key-down with no modifier held. -/
def evEnter : KeyboardEvt :=
  { key := "Enter", shiftKey := false, ctrlKey := false, metaKey := false }

/-- A composer state with an attached editor holding some text. -/
def csA : ComposerState := { editorHTML := some "hello", content := some "hello" }

/-- An input event on a div target whose markup holds an empty paragraph. -/
def evtDivIn : InputEvt := { targetIsDiv := true, targetInnerHTML := "a<div><br></div>b" }

/-! ### Claims about the composer hook -/

/-- C7: events handled by the autocomplete never trigger a send; for an
unhandled Enter key-down, with "enter sends" enabled the send action fires iff
Shift is not held, and with it disabled it fires iff the platform
send-modifier (Cmd on Mac, Ctrl otherwise) is held; whenever it fires it
clears the editor content. -/
theorem onKeyDown_enter_spec (isMac ess : Bool) (ev : KeyboardEvt)
    (s : ComposerState) (hkey : ev.key = keyEnter) :
    (∀ (ev2 : KeyboardEvt) (s2 : ComposerState),
      (onKeyDown true isMac ess ev2 s2).2.onSendCount = 0 ∧
      (onKeyDown true isMac ess ev2 s2).1 = s2) ∧
    (ess = true →
      ((onKeyDown false isMac ess ev s).2.onSendCount = 1 ↔ ev.shiftKey = false)) ∧
    (ess = false →
      ((onKeyDown false isMac ess ev s).2.onSendCount = 1 ↔
        (if isMac then ev.metaKey else ev.ctrlKey) = true)) ∧
    ((onKeyDown false isMac ess ev s).2.onSendCount = 1 →
      (onKeyDown false isMac ess ev s).1.editorHTML
        = s.editorHTML.map (fun _ => "")) := by
  refine ⟨?_, ?_, ?_, ?_⟩
  · intro ev2 s2
    simp [onKeyDown, noEffects]
  · rintro rfl
    cases hs : ev.shiftKey <;>
      simp [onKeyDown, hkey, hs, noEffects, send_onSendCount]
  · rintro rfl
    cases hm : (if isMac then ev.metaKey else ev.ctrlKey) <;>
      simp [onKeyDown, hkey, hm, noEffects, send_onSendCount]
  · cases ess <;> cases hs : ev.shiftKey <;>
      cases hm : (if isMac then ev.metaKey else ev.ctrlKey) <;>
      simp [onKeyDown, hkey, hs, hm, noEffects, send_onSendCount, send_editorHTML]

/-- C7 witness: with "enter sends" enabled, a bare Enter fires the send. -/
theorem onKeyDown_enter_spec_witness :
    (onKeyDown false false true evEnter csA).2.onSendCount = 1 :=
  ((onKeyDown_enter_spec false true evEnter csA rfl).2.1 rfl).mpr rfl

/-- C8: for an input or paste event on a div target, the committed content and
the `onChange` argument equal the raw `innerHTML` when "enter sends" is
enabled, and when it is disabled equal the normalized form — entity-decode,
replace every `<div><br></div>` with a newline, replace every remaining
`<div>` with a newline, remove every `</div>`; and the paste handler is the
input handler itself. -/
theorem onInput_commit_spec (decodeHtml : String → String) (ess : Bool)
    (ev : InputEvt) (s : ComposerState) (hdiv : ev.targetIsDiv = true) :
    (onInput decodeHtml true ev s).1.content = some ev.targetInnerHTML ∧
    (onInput decodeHtml true ev s).2.onChangeCalls = [ev.targetInnerHTML] ∧
    (onInput decodeHtml false ev s).1.content =
      some (replaceAll
        (replaceAll (replaceAll (decodeHtml ev.targetInnerHTML) "<div><br></div>" "\n")
          "<div>" "\n") "</div>" "") ∧
    (onInput decodeHtml false ev s).2.onChangeCalls =
      [replaceAll
        (replaceAll (replaceAll (decodeHtml ev.targetInnerHTML) "<div><br></div>" "\n")
          "<div>" "\n") "</div>" ""] ∧
    onPaste decodeHtml ess = onInput decodeHtml ess := by
  refine ⟨?_, ?_, ?_, ?_, rfl⟩ <;> simp [onInput, hdiv, setText, amendInnerHtml]

/-- C8 witness: with "enter sends" disabled and the identity entity-decoding,
the markup `a<div><br></div>b` commits as the text with a newline. -/
theorem onInput_commit_spec_witness :
    (onInput id false evtDivIn csA).1.content = some "a\nb" := by
  rw [(onInput_commit_spec id false evtDivIn csA rfl).2.2.1]
  decide

/-- C10: the send action clears only the editor div's `innerHTML` and invokes
`onSend` once; the `content` state is untouched and `onChange` is not
invoked. -/
theorem send_frame_spec (s : ComposerState) :
    (send s).2.onSendCount = 1 ∧
    (send s).2.onChangeCalls = [] ∧
    (send s).1.content = s.content ∧
    (send s).1.editorHTML = s.editorHTML.map (fun _ => "") :=
  ⟨send_onSendCount s, send_onChangeCalls s, send_content s, send_editorHTML s⟩

end PlainTextComposer
